import Mathlib

/-!
Verification of the bounded polling primitive and its callers from the
aws-toolkit-vscode sources (`shared/clients/cawsClient.ts`,
`shared/toolkitError.ts` together with `mde/mdeCommands.ts`, and
`codewhisperer/service/securityIssueHoverProvider.ts`).

The generic primitive (`waitUntil` / `waitTimeout` / `Timeout` in
`shared/utilities/timeoutUtils.ts`) is not among the sources; it is modelled
from the specification (§4.1, §5, §7, §8).  The probe bodies, the debounce
prologue of `startEnvironmentWithProgress`, `getTelemetryResult`,
`ToolkitError.cancelled` and `SecurityIssueHoverProvider.provideHover` are
embedded directly from the sources.
-/

/-- Outcome of a single probe invocation: the probe either reports
"not yet ready", returns a definitive (truthy) result, or throws. -/
inductive ProbeStep (α ε : Type) where
  | notReady
  | ready (val : α)
  | fault (err : ε)
deriving DecidableEq

/-- Terminal outcome of a run of the bounded polling primitive:
success, timeout expiry, cancellation, or a propagated probe error. -/
inductive PollResult (α ε : Type) where
  | success (val : α)
  | expired
  | cancelled
  | probeError (err : ε)
deriving DecidableEq

/-- Modelled from the spec: the cancellation token (`Timeout` in
`shared/utilities/timeoutUtils.ts`, not among the sources) is "checked
before scheduling the next poll"; `cancelAt` is the wall-clock time at
which cancellation is signalled, if ever. -/
def cancelSignaled (cancelAt : Option Nat) (t : Nat) : Bool :=
  match cancelAt with
  | none => false
  | some c => decide (c ≤ t)

/-- Modelled from the spec: the loop body of `waitUntil`
(`shared/utilities/timeoutUtils.ts`, not among the sources).  Poll number
`n` (0-based) runs at wall-clock time `n * interval`.  Before invoking the
probe the primitive checks the cancellation signal, then the wall-clock
deadline; a "not ready" answer schedules the next poll after the interval.
`fuel` only guarantees termination of the model; `waitUntil` supplies
enough of it that the fuel-exhausted branch is never the deciding one for
a positive interval. -/
def waitUntilAux (probe : Nat → ProbeStep α ε) (interval timeout : Nat)
    (cancelAt : Option Nat) : Nat → Nat → PollResult α ε × Nat
  | 0, n => (.expired, n)
  | fuel + 1, n =>
    if cancelSignaled cancelAt (n * interval) then (.cancelled, n)
    else if timeout ≤ n * interval then (.expired, n)
    else
      match probe n with
      | .ready v => (.success v, n + 1)
      | .fault e => (.probeError e, n + 1)
      | .notReady => waitUntilAux probe interval timeout cancelAt fuel (n + 1)

/-- Modelled from the spec: `waitUntil` composed with the cancellation
token (§4.1): repeatedly invoke the probe at a fixed cadence until it
returns a definitive result, the deadline elapses, or cancellation is
signalled.  Returns the terminal outcome together with the number of probe
invocations made. -/
def waitUntil (probe : Nat → ProbeStep α ε) (interval timeout : Nat)
    (cancelAt : Option Nat) : PollResult α ε × Nat :=
  waitUntilAux probe interval timeout cancelAt (timeout + 1) 0

/-- Modelled from the spec: the value `waitTimeout`
(`shared/utilities/timeoutUtils.ts`, not among the sources) hands back to
the caller.  Both callers in the sources pass `onExpire` and `onCancel`
handlers returning `undefined`, so timeout and cancellation yield the same
absence value; a probe error is re-thrown. -/
def waitTimeoutValue : PollResult α ε → Except ε (Option α)
  | .success v => .ok (some v)
  | .expired => .ok none
  | .cancelled => .ok none
  | .probeError e => .error e

/-- Which callback `waitTimeout` fires: `onExpire` on timeout, `onCancel`
on cancellation, neither otherwise — the flag that lets callers tell the
two absence outcomes apart. -/
inductive FiredCallback where
  | onExpire
  | onCancel
  | noCallback
deriving DecidableEq

/-- Modelled from the spec: which of the `waitTimeout` callbacks runs for
each terminal outcome. -/
def firedCallback : PollResult α ε → FiredCallback
  | .expired => .onExpire
  | .cancelled => .onCancel
  | _ => .noCallback

/-- Boolean classifiers of the four terminal outcomes. -/
def PollResult.isSuccess : PollResult α ε → Bool
  | .success _ => true
  | _ => false

def PollResult.isExpired : PollResult α ε → Bool
  | .expired => true
  | _ => false

def PollResult.isCancelledOutcome : PollResult α ε → Bool
  | .cancelled => true
  | _ => false

def PollResult.isProbeFault : PollResult α ε → Bool
  | .probeError _ => true
  | _ => false

/-- Ceiling-division bound: for a positive interval, poll index `k` runs
strictly before the deadline iff `k` lies below `⌈timeout / interval⌉`. -/
theorem lt_ceil_div_iff {i t k : Nat} (hi : 0 < i) :
    k < (t + i - 1) / i ↔ k * i < t := by
  rw [Nat.lt_iff_add_one_le, Nat.le_div_iff_mul_le hi, Nat.succ_mul]
  set x := k * i with hx
  omega

/-- Skipping lemma: as long as the probe keeps answering "not ready" and
neither cancellation nor the deadline intervenes, the polling loop simply
advances from poll `n` to poll `n + m`, consuming `m` units of fuel. -/
theorem waitUntilAux_skip (probe : Nat → ProbeStep α ε) (i t : Nat)
    (c : Option Nat) (m : Nat) :
    ∀ fuel n, (∀ k, k < m → probe (n + k) = .notReady) →
      (∀ k, k < m → cancelSignaled c ((n + k) * i) = false) →
      (∀ k, k < m → (n + k) * i < t) →
      waitUntilAux probe i t c (fuel + m) n = waitUntilAux probe i t c fuel (n + m) := by
  induction m with
  | zero => intro fuel n _ _ _; rfl
  | succ m ih =>
    intro fuel n hnr hc ht
    have h0c : cancelSignaled c (n * i) = false := by simpa using hc 0 (Nat.succ_pos m)
    have h0t : n * i < t := by simpa using ht 0 (Nat.succ_pos m)
    have h0p : probe n = .notReady := by simpa using hnr 0 (Nat.succ_pos m)
    have hfe : fuel + (m + 1) = (fuel + m) + 1 := by omega
    rw [hfe]
    have step : waitUntilAux probe i t c ((fuel + m) + 1) n
        = waitUntilAux probe i t c (fuel + m) (n + 1) := by
      simp [waitUntilAux, h0c, h0p, Nat.not_le.mpr h0t]
    rw [step]
    have goal := ih fuel (n + 1)
      (fun k hk => by
        have h := hnr (k + 1) (by omega)
        rwa [show n + (k + 1) = n + 1 + k by omega] at h)
      (fun k hk => by
        have h := hc (k + 1) (by omega)
        rwa [show n + (k + 1) = n + 1 + k by omega] at h)
      (fun k hk => by
        have h := ht (k + 1) (by omega)
        rwa [show n + (k + 1) = n + 1 + k by omega] at h)
    rw [goal, show n + 1 + m = n + (m + 1) by omega]

/-- Ceiling division times the divisor dominates the dividend. -/
theorem ceil_div_mul_ge {i t : Nat} (hi : 0 < i) : t ≤ ((t + i - 1) / i) * i := by
  have h : (t + i - 1) / i < (t + i - 1) / i + 1 := Nat.lt_succ_self _
  rw [Nat.div_lt_iff_lt_mul hi] at h
  have he : ((t + i - 1) / i + 1) * i = ((t + i - 1) / i) * i + i := by ring
  rw [he] at h
  set x := ((t + i - 1) / i) * i
  omega

/-- Entry-point form of the skipping lemma: after `m` unanswered polls the
run continues at poll `m` with the corresponding fuel. -/
theorem waitUntil_skip (probe : Nat → ProbeStep α ε) (i t : Nat)
    (c : Option Nat) (m : Nat) (hm : m ≤ t)
    (hnr : ∀ k, k < m → probe k = .notReady)
    (hc : ∀ k, k < m → cancelSignaled c (k * i) = false)
    (ht : ∀ k, k < m → k * i < t) :
    waitUntil probe i t c = waitUntilAux probe i t c (t + 1 - m) m := by
  unfold waitUntil
  conv_lhs => rw [show t + 1 = (t + 1 - m) + m from by omega]
  rw [waitUntilAux_skip probe i t c m (t + 1 - m) 0
    (fun k hk => by simpa using hnr k hk)
    (fun k hk => by simpa using hc k hk)
    (fun k hk => by simpa using ht k hk)]
  rw [Nat.zero_add]

/-- A poll index below a bound stays below the deadline when the bound does. -/
theorem poll_index_le_deadline {i t m : Nat} (hi : 0 < i) (hmt : m * i < t) : m ≤ t := by
  have h1 : m ≤ m * i := Nat.le_mul_of_pos_right m hi
  set x := m * i
  omega

/-- A run whose first `n₀` polls all lie before the deadline has `n₀ ≤ t`. -/
theorem reach_le {i t n₀ : Nat} (hi : 0 < i) (ht : ∀ k, k < n₀ → k * i < t) :
    n₀ ≤ t := by
  rcases Nat.eq_zero_or_pos n₀ with h0 | hpos
  · omega
  · have h := ht (n₀ - 1) (by omega)
    have h2 : n₀ - 1 ≤ (n₀ - 1) * i := Nat.le_mul_of_pos_right _ hi
    set x := (n₀ - 1) * i
    omega

/-- Success at a general poll boundary: if the run reaches poll `n₀` (all
earlier probes "not ready", no cancellation or deadline up to and
including boundary `n₀`) and the probe settles with a definitive value
there, the run succeeds with `n₀ + 1` invocations — whatever the
cancellation signal does afterwards. -/
theorem waitUntil_ready_at (probe : Nat → ProbeStep α ε) (i t : Nat)
    (c : Option Nat) (n₀ : Nat) (v : α) (hi : 0 < i)
    (hnr : ∀ k, k < n₀ → probe k = .notReady)
    (hc : ∀ k, k ≤ n₀ → cancelSignaled c (k * i) = false)
    (ht : ∀ k, k ≤ n₀ → k * i < t)
    (hv : probe n₀ = .ready v) :
    waitUntil probe i t c = (.success v, n₀ + 1) := by
  have hmt : n₀ ≤ t := reach_le hi (fun k hk => ht k (le_of_lt hk))
  rw [waitUntil_skip probe i t c n₀ hmt hnr
    (fun k hk => hc k (le_of_lt hk)) (fun k hk => ht k (le_of_lt hk))]
  rw [show t + 1 - n₀ = (t - n₀) + 1 by omega]
  simp [waitUntilAux, hc n₀ le_rfl, hv, Nat.not_le.mpr (ht n₀ le_rfl)]

/-- C2 core: if the probe answers "not ready" on its first `N - 1`
invocations and a definitive value on the `N`th, and the `N`th poll still
lies before the deadline, the run succeeds with exactly `N` invocations. -/
theorem waitUntil_ready_exact (probe : Nat → ProbeStep α ε) (i t N : Nat) (v : α)
    (hi : 0 < i) (hN : 1 ≤ N)
    (hnr : ∀ k, k < N - 1 → probe k = .notReady)
    (hv : probe (N - 1) = .ready v)
    (ht : (N - 1) * i < t) :
    waitUntil probe i t none = (.success v, N) := by
  have h := waitUntil_ready_at probe i t none (N - 1) v hi hnr (fun _ _ => rfl)
    (fun k hk => lt_of_le_of_lt (Nat.mul_le_mul_right i hk) ht) hv
  rw [show N - 1 + 1 = N from by omega] at h
  exact h

/-- C4 core: if the probe faults on its `K`th invocation, the run reports
the probe error after exactly `K` invocations. -/
theorem waitUntil_fault_exact (probe : Nat → ProbeStep α ε) (i t K : Nat) (e : ε)
    (hi : 0 < i) (hK : 1 ≤ K)
    (hnr : ∀ k, k < K - 1 → probe k = .notReady)
    (he : probe (K - 1) = .fault e)
    (ht : (K - 1) * i < t) :
    waitUntil probe i t none = (.probeError e, K) := by
  have hkt : ∀ k, k < K - 1 → k * i < t := fun k hk =>
    lt_of_le_of_lt (Nat.mul_le_mul_right i (by omega)) ht
  have hmt : K - 1 ≤ t := poll_index_le_deadline hi ht
  rw [waitUntil_skip probe i t none (K - 1) hmt hnr (fun k _ => rfl) hkt]
  rw [show t + 1 - (K - 1) = (t - (K - 1)) + 1 by omega]
  simp [waitUntilAux, cancelSignaled, he, Nat.not_le.mpr ht]
  omega

/-- Generalised C3 core: if the first `M` polls all run before the
deadline and poll `M` would not, a never-ready probe expires after exactly
`M` invocations. -/
theorem waitUntil_never_ready_gen (probe : Nat → ProbeStep α ε) (i t M : Nat)
    (hi : 0 < i) (hnr : ∀ k, probe k = .notReady)
    (hkt : ∀ k, k < M → k * i < t) (hMt : t ≤ M * i) :
    waitUntil probe i t none = (.expired, M) := by
  have hmt : M ≤ t := reach_le hi hkt
  rw [waitUntil_skip probe i t none M hmt (fun k _ => hnr k) (fun k _ => rfl) hkt]
  rcases hf : t + 1 - M with _ | f
  · rfl
  · simp [waitUntilAux, cancelSignaled, hMt]

/-- C3 core: a probe that is never ready runs into the deadline after
exactly `⌈timeout / interval⌉` invocations. -/
theorem waitUntil_never_ready (probe : Nat → ProbeStep α ε) (i t : Nat)
    (hi : 0 < i) (hnr : ∀ k, probe k = .notReady) :
    waitUntil probe i t none = (.expired, (t + i - 1) / i) := by
  exact waitUntil_never_ready_gen probe i t ((t + i - 1) / i) hi hnr
    (fun k hk => (lt_ceil_div_iff hi).mp hk) (ceil_div_mul_ge hi)

/-- C5 core: once the cancellation signal is raised before a poll boundary
that the run reaches, the run reports cancellation there, with no further
probe invocations. -/
theorem waitUntil_cancelled_at (probe : Nat → ProbeStep α ε) (i t c n₀ : Nat)
    (hi : 0 < i)
    (hnr : ∀ k, k < n₀ → probe k = .notReady)
    (hcb : ∀ k, k < n₀ → k * i < c)
    (ht : ∀ k, k < n₀ → k * i < t)
    (hcn : c ≤ n₀ * i) :
    waitUntil probe i t (some c) = (.cancelled, n₀) := by
  have hmt : n₀ ≤ t := reach_le hi ht
  rw [waitUntil_skip probe i t (some c) n₀ hmt hnr
    (fun k hk => by simp [cancelSignaled, Nat.not_le.mpr (hcb k hk)]) ht]
  rw [show t + 1 - n₀ = (t - n₀) + 1 by omega]
  simp [waitUntilAux, cancelSignaled, hcn]

/-- Classification of an arbitrary terminal outcome: the four classifiers
tally to exactly one, and the fired callback together with the caller
value determines the outcome. -/
theorem pollResult_classify (r : PollResult α ε) :
    (r.isSuccess.toNat + r.isExpired.toNat + r.isCancelledOutcome.toNat
      + r.isProbeFault.toNat = 1)
    ∧ (r = .expired ↔ firedCallback r = .onExpire)
    ∧ (r = .cancelled ↔ firedCallback r = .onCancel)
    ∧ (∀ v, r = .success v ↔ waitTimeoutValue r = .ok (some v))
    ∧ (∀ e, r = .probeError e ↔ waitTimeoutValue r = .error e) := by
  cases r <;>
    simp [PollResult.isSuccess, PollResult.isExpired, PollResult.isCancelledOutcome,
      PollResult.isProbeFault, firedCallback, waitTimeoutValue]

/-- Claim C1: every run of the bounded polling primitive terminates in
exactly one of the four outcomes — success, timeout, cancellation, probe
error — and the caller can tell all four apart; timeout and cancellation
both hand back the absence value, yet are reported through the separate
`onExpire` and `onCancel` callbacks rather than by the value alone. -/
theorem waitUntil_exactly_one_of_four_outcomes (probe : Nat → ProbeStep α ε)
    (i t : Nat) (c : Option Nat) :
    ((waitUntil probe i t c).1.isSuccess.toNat
      + (waitUntil probe i t c).1.isExpired.toNat
      + (waitUntil probe i t c).1.isCancelledOutcome.toNat
      + (waitUntil probe i t c).1.isProbeFault.toNat = 1)
    ∧ (waitTimeoutValue (PollResult.expired : PollResult α ε) = .ok none
        ∧ waitTimeoutValue (PollResult.cancelled : PollResult α ε) = .ok none
        ∧ firedCallback (PollResult.expired : PollResult α ε) = .onExpire
        ∧ firedCallback (PollResult.cancelled : PollResult α ε) = .onCancel)
    ∧ ((waitUntil probe i t c).1 = .expired
        ↔ firedCallback (waitUntil probe i t c).1 = .onExpire)
    ∧ ((waitUntil probe i t c).1 = .cancelled
        ↔ firedCallback (waitUntil probe i t c).1 = .onCancel)
    ∧ (∀ v, (waitUntil probe i t c).1 = .success v
        ↔ waitTimeoutValue (waitUntil probe i t c).1 = .ok (some v))
    ∧ (∀ e, (waitUntil probe i t c).1 = .probeError e
        ↔ waitTimeoutValue (waitUntil probe i t c).1 = .error e) := by
  obtain ⟨h1, h2, h3, h4, h5⟩ := pollResult_classify ((waitUntil probe i t c).1)
  exact ⟨h1, ⟨rfl, rfl, rfl, rfl⟩, h2, h3, h4, h5⟩

/-- Claim C2: for a probe that returns a definitive result on its `N`th
invocation with `N * interval < timeout`, the primitive resolves with that
result having invoked the probe exactly `N` times. -/
theorem waitUntil_definitive_exactly_n (probe : Nat → ProbeStep α ε)
    (i t N : Nat) (v : α) (hi : 0 < i) (hN : 1 ≤ N)
    (hnr : ∀ k, k < N - 1 → probe k = .notReady)
    (hv : probe (N - 1) = .ready v)
    (ht : N * i < t) :
    waitUntil probe i t none = (.success v, N) :=
  waitUntil_ready_exact probe i t N v hi hN hnr hv
    (lt_of_le_of_lt (Nat.mul_le_mul_right i (Nat.sub_le N 1)) ht)

/-- Probe used by the C2 witness: "not ready" on the first three calls, a
definitive value on the fourth. -/
def c2Probe (n : Nat) : ProbeStep Nat String :=
  if n < 3 then .notReady else .ready 42

/-- Witness for claim C2: the spec's concrete scenario, interval 100,
timeout 500, definitive value on call 4. -/
theorem waitUntil_definitive_exactly_n_witness :
    (0 : Nat) < 100 ∧ 1 ≤ 4
    ∧ (∀ k, k < 4 - 1 → c2Probe k = .notReady)
    ∧ c2Probe (4 - 1) = .ready 42
    ∧ 4 * 100 < 500
    ∧ waitUntil c2Probe 100 500 none = (.success 42, 4) :=
  ⟨by decide, by decide, by decide, by decide, by decide,
    waitUntil_definitive_exactly_n c2Probe 100 500 4 42 (by decide) (by decide)
      (by decide) (by decide) (by decide)⟩

/-- Claim C3: for a probe that never returns a definitive result, the
primitive reports timeout, having invoked the probe at most
`⌈timeout / interval⌉` times; the deadline is a wall-clock bound, not a
poll-count bound. -/
theorem waitUntil_timeout_bounded_polls (probe : Nat → ProbeStep α ε)
    (i t : Nat) (hi : 0 < i) (hnr : ∀ k, probe k = .notReady) :
    (waitUntil probe i t none).1 = .expired
    ∧ (waitUntil probe i t none).2 ≤ (t + i - 1) / i := by
  rw [waitUntil_never_ready probe i t hi hnr]
  exact ⟨rfl, le_refl _⟩

/-- Probe used by the C3 witness: never ready. -/
def c3Probe (_ : Nat) : ProbeStep Nat String := .notReady

/-- Witness for claim C3: the spec's concrete scenario, interval 100,
timeout 250, at most three calls. -/
theorem waitUntil_timeout_bounded_polls_witness :
    (0 : Nat) < 100 ∧ (∀ k, c3Probe k = .notReady)
    ∧ ((waitUntil c3Probe 100 250 none).1 = .expired
        ∧ (waitUntil c3Probe 100 250 none).2 ≤ (250 + 100 - 1) / 100) :=
  ⟨by decide, fun _ => rfl,
    waitUntil_timeout_bounded_polls c3Probe 100 250 (by decide) (fun _ => rfl)⟩

/-- Claim C4: a probe that throws on its `K`th invocation makes the
primitive propagate the error immediately, with exactly `K` invocations
made — the probe is never invoked a `(K + 1)`th time. -/
theorem waitUntil_fault_propagates_immediately (probe : Nat → ProbeStep α ε)
    (i t K : Nat) (e : ε) (hi : 0 < i) (hK : 1 ≤ K)
    (hnr : ∀ k, k < K - 1 → probe k = .notReady)
    (he : probe (K - 1) = .fault e)
    (ht : (K - 1) * i < t) :
    waitUntil probe i t none = (.probeError e, K) :=
  waitUntil_fault_exact probe i t K e hi hK hnr he ht

/-- Probe used by the C4 witness: "not ready" once, then a thrown error. -/
def c4Probe (n : Nat) : ProbeStep Nat String :=
  if n < 1 then .notReady else .fault "boom"

/-- Witness for claim C4: interval 100, timeout 500, probe throws on its
second invocation; the error propagates after exactly two calls. -/
theorem waitUntil_fault_propagates_immediately_witness :
    (0 : Nat) < 100 ∧ 1 ≤ 2
    ∧ (∀ k, k < 2 - 1 → c4Probe k = .notReady)
    ∧ c4Probe (2 - 1) = .fault "boom"
    ∧ (2 - 1) * 100 < 500
    ∧ waitUntil c4Probe 100 500 none = (.probeError "boom", 2) :=
  ⟨by decide, by decide, by decide, by decide, by decide,
    waitUntil_fault_propagates_immediately c4Probe 100 500 2 "boom" (by decide)
      (by decide) (by decide) (by decide) (by decide)⟩

/-- Claim C5: cancellation is cooperative.  If the signal is raised before
poll boundary `n₀` (and not before any earlier boundary), the primitive
reports cancellation at that boundary with no further probe invocation;
conversely a probe that settles with a definitive value at a boundary the
signal has not yet reached wins — the in-flight invocation is never
aborted, so cancellation only ever takes effect at the next boundary. -/
theorem waitUntil_cancellation_cooperative (probe : Nat → ProbeStep α ε)
    (i t c n₀ : Nat) (v : α) (hi : 0 < i) :
    ((∀ k, k < n₀ → probe k = .notReady) → (∀ k, k < n₀ → k * i < c) →
      (∀ k, k < n₀ → k * i < t) → c ≤ n₀ * i →
      waitUntil probe i t (some c) = (.cancelled, n₀))
    ∧ ((∀ k, k < n₀ → probe k = .notReady) → (∀ k, k ≤ n₀ → k * i < c) →
      (∀ k, k ≤ n₀ → k * i < t) → probe n₀ = .ready v →
      waitUntil probe i t (some c) = (.success v, n₀ + 1)) := by
  constructor
  · intro hnr hcb ht hcn
    exact waitUntil_cancelled_at probe i t c n₀ hi hnr hcb ht hcn
  · intro hnr hcb ht hv
    exact waitUntil_ready_at probe i t (some c) n₀ v hi hnr
      (fun k hk => by simp [cancelSignaled, Nat.not_le.mpr (hcb k hk)]) ht hv

/-- Probe used by the C5 witness: never ready. -/
def c5Probe (_ : Nat) : ProbeStep Nat String := .notReady

/-- Witness for claim C5: interval 100, timeout 1000, cancellation raised
at time 250; the run reports cancellation at poll boundary 3 after exactly
three probe invocations. -/
theorem waitUntil_cancellation_cooperative_witness :
    (0 : Nat) < 100
    ∧ (∀ k, k < 3 → c5Probe k = .notReady)
    ∧ (∀ k, k < 3 → k * 100 < 250)
    ∧ (∀ k, k < 3 → k * 100 < 1000)
    ∧ 250 ≤ 3 * 100
    ∧ waitUntil c5Probe 100 1000 (some 250) = (.cancelled, 3) :=
  ⟨by decide, by decide, by decide, by decide, by decide,
    (waitUntil_cancellation_cooperative c5Probe 100 1000 250 3 0 (by decide)).1
      (by decide) (by decide) (by decide) (by decide)⟩

/-- Modelled from the spec (§5): wall-clock start time of poll `n` in the
single cooperative task: each poll begins only after the previous probe
invocation has settled (`dur` gives each invocation's running time) and
the interval sleep has elapsed. -/
def pollStart (dur : Nat → Nat) (interval : Nat) : Nat → Nat
  | 0 => 0
  | n + 1 => pollStart dur interval n + dur n + interval

/-- Modelled from the spec (§5): wall-clock time at which probe
invocation `n` settles. -/
def pollEnd (dur : Nat → Nat) (interval : Nat) (n : Nat) : Nat :=
  pollStart dur interval n + dur n

/-- Claim C6: probe invocations are strictly sequential — every earlier
invocation has settled, and the interval sleep elapsed, before a later
invocation starts, so no two invocations overlap in time. -/
theorem polls_strictly_sequential (dur : Nat → Nat) (i m n : Nat) (h : m < n) :
    pollEnd dur i m + i ≤ pollStart dur i n := by
  induction n with
  | zero => exact absurd h (Nat.not_lt_zero m)
  | succ n ih =>
    rcases Nat.lt_succ_iff_lt_or_eq.mp h with h' | h'
    · refine le_trans (ih h') ?_
      show pollStart dur i n ≤ pollStart dur i n + dur n + i
      exact le_trans (Nat.le_add_right _ _) (Nat.le_add_right _ _)
    · subst h'
      simp [pollEnd, pollStart]

/-- Witness for claim C6: three polls with varying probe durations. -/
theorem polls_strictly_sequential_witness :
    (0 : Nat) < 2
    ∧ pollEnd (fun k => k + 1) 2 0 + 2 ≤ pollStart (fun k => k + 1) 2 2 :=
  ⟨by decide, polls_strictly_sequential (fun k => k + 1) 2 0 2 (by decide)⟩

/-- Lifecycle status of an MDE/CAWS development environment, as the
sources compare it (strings other than the four named states are
`otherStatus`). -/
inductive EnvStatus where
  | RUNNING
  | STOPPED
  | STOPPING
  | STARTING
  | otherStatus
deriving DecidableEq

/-- Result of one invocation of the `startMde` probe: whether a
`startEnvironment` (resume) request was issued, and the value returned to
`waitUntil` (`none` = not ready). -/
structure MdeProbeOut (E : Type) where
  startIssued : Bool
  outcome : Option E

/-- Embedded from the `startMde` probe (mde/mdeCommands.ts, the `waitUntil`
body at lines 206–227): return early when the timeout token already
completed; otherwise fetch the environment metadata (`resp`), issue a
resume request when the status is STOPPED, and report the response as
definitive exactly when the status is RUNNING. -/
def mdeProbe (timeoutCompleted : Bool) (resp : Option E)
    (statusOf : E → Option EnvStatus) : MdeProbeOut E :=
  if timeoutCompleted then { startIssued := false, outcome := none }
  else
    let st := resp.bind statusOf
    { startIssued := decide (st = some .STOPPED)
      outcome := if st = some .RUNNING then resp else none }

/-- Result of one invocation of the `startEnvironmentWithProgress` probe:
whether a `startDevEnv` request was issued, the value handed to
`waitUntil` (or the thrown error), and the `lastStatus` variable after the
invocation. -/
structure CawsProbeOut (E : Type) where
  startIssued : Bool
  outcome : Except String (Option E)
  lastStatusNext : Option EnvStatus

/-- Embedded from the `startEnvironmentWithProgress` probe
(cawsClient.ts, the `waitUntil` body at lines 496–522): return early when
the timeout token completed; throw when the previous poll saw STARTING and
this one sees STOPPED or STOPPING; otherwise issue a start request when
the status is STOPPED, record the status in `lastStatus`, and report the
response as definitive exactly when the status is RUNNING. -/
def cawsProbe (timeoutCompleted : Bool) (lastStatus : Option EnvStatus)
    (resp : Option E) (statusOf : E → Option EnvStatus) : CawsProbeOut E :=
  if timeoutCompleted then
    { startIssued := false, outcome := .ok none, lastStatusNext := lastStatus }
  else
    let st := resp.bind statusOf
    if lastStatus = some .STARTING ∧ (st = some .STOPPED ∨ st = some .STOPPING) then
      { startIssued := false
        outcome := .error "Evironment failed to start"
        lastStatusNext := lastStatus }
    else
      { startIssued := decide (st = some .STOPPED)
        outcome := .ok (if st = some .RUNNING then resp else none)
        lastStatusNext := st }

/-- Concrete environment record used by witnesses and counterexamples. -/
structure EnvR where
  status : Option EnvStatus
deriving DecidableEq

/-- Counterexample to claim C7 as stated: in
`startEnvironmentWithProgress`, a poll that observes STOPPED right after a
poll that observed STARTING does NOT issue a start request — it throws,
terminating the polling loop. -/
theorem caws_probe_stopped_after_starting_throws :
    (cawsProbe false (some .STARTING) (some (⟨some .STOPPED⟩ : EnvR))
      EnvR.status).startIssued = false
    ∧ (cawsProbe false (some .STARTING) (some (⟨some .STOPPED⟩ : EnvR))
      EnvR.status).outcome = .error "Evironment failed to start" := by
  constructor <;> rfl

/-- Claim C7 (amended): with the timeout token not yet completed, a poll
that observes STOPPED issues a start (resume) request and reports
not-ready — unconditionally in `startMde`, and in
`startEnvironmentWithProgress` only when the previous poll did not observe
STARTING; in that remaining case the probe instead throws, issuing no
start request.  The polling primitive itself counts no retries and adds no
backoff (its behaviour is a function of interval, deadline and
cancellation alone, as the C2/C3 theorems show). -/
theorem probes_issue_start_on_stopped (E : Type) (statusOf : E → Option EnvStatus)
    (resp : Option E) (last : Option EnvStatus)
    (hst : resp.bind statusOf = some .STOPPED) :
    ((mdeProbe false resp statusOf).startIssued = true
      ∧ (mdeProbe false resp statusOf).outcome = none)
    ∧ (last ≠ some .STARTING →
        (cawsProbe false last resp statusOf).startIssued = true
        ∧ (cawsProbe false last resp statusOf).outcome = .ok none)
    ∧ (last = some .STARTING →
        (cawsProbe false last resp statusOf).startIssued = false
        ∧ (cawsProbe false last resp statusOf).outcome
            = .error "Evironment failed to start") := by
  refine ⟨?_, ?_, ?_⟩
  · simp [mdeProbe, hst]
  · intro hl
    simp [cawsProbe, hst, hl]
  · intro hl
    simp [cawsProbe, hst, hl]

/-- Witness for claim C7 (amended): a STOPPED response with no preceding
STARTING observation makes both probes issue a start request and report
not-ready. -/
theorem probes_issue_start_on_stopped_witness :
    (some (⟨some .STOPPED⟩ : EnvR)).bind EnvR.status = some .STOPPED
    ∧ (((mdeProbe false (some (⟨some .STOPPED⟩ : EnvR)) EnvR.status).startIssued = true
        ∧ (mdeProbe false (some (⟨some .STOPPED⟩ : EnvR)) EnvR.status).outcome = none)
      ∧ ((none : Option EnvStatus) ≠ some .STARTING →
          (cawsProbe false none (some (⟨some .STOPPED⟩ : EnvR)) EnvR.status).startIssued = true
          ∧ (cawsProbe false none (some (⟨some .STOPPED⟩ : EnvR)) EnvR.status).outcome = .ok none)
      ∧ ((none : Option EnvStatus) = some .STARTING →
          (cawsProbe false none (some (⟨some .STOPPED⟩ : EnvR)) EnvR.status).startIssued = false
          ∧ (cawsProbe false none (some (⟨some .STOPPED⟩ : EnvR)) EnvR.status).outcome
              = .error "Evironment failed to start")) :=
  ⟨rfl, probes_issue_start_on_stopped EnvR EnvR.status
    (some (⟨some .STOPPED⟩ : EnvR)) none rfl⟩

/-- Overall result of `startEnvironmentWithProgress`: either the debounce
path returned the already-running environment, or the polling loop ran to
one of its terminal outcomes. -/
inductive StartEnvOutcome (E : Type) where
  | immediate (env : E)
  | polled (r : PollResult E String)

/-- The `waitUntil` loop of `startEnvironmentWithProgress`, specialised to
its probe: the `lastStatus` variable is threaded from one probe invocation
to the next; `getResp n` is what `getDevEnv` returns on poll `n`. -/
def cawsPollAux (getResp : Nat → Option E) (statusOf : E → Option EnvStatus)
    (interval timeout : Nat) (cancelAt : Option Nat) :
    Nat → Nat → Option EnvStatus → PollResult E String × Nat
  | 0, n, _ => (.expired, n)
  | fuel + 1, n, last =>
    if cancelSignaled cancelAt (n * interval) then (.cancelled, n)
    else if timeout ≤ n * interval then (.expired, n)
    else
      let step := cawsProbe false last (getResp n) statusOf
      match step.outcome with
      | .error e => (.probeError e, n + 1)
      | .ok (some v) => (.success v, n + 1)
      | .ok none =>
        cawsPollAux getResp statusOf interval timeout cancelAt fuel (n + 1)
          step.lastStatusNext

/-- Embedded from `startEnvironmentWithProgress` (cawsClient.ts, lines
475–540): first an initial `getDevEnv` call (`initial`; `Except.error`
models the caught throw) sets `lastStatus`; if the requested status is
RUNNING and the environment is already RUNNING, the environment is
returned at once ("debounce").  Otherwise the probe is polled as in the
`waitUntil` model.  The second component counts probe invocations. -/
def startEnvironmentWithProgress (requested : EnvStatus)
    (initial : Except Unit (Option E)) (statusOf : E → Option EnvStatus)
    (getResp : Nat → Option E) (interval timeout : Nat)
    (cancelAt : Option Nat) : StartEnvOutcome E × Nat :=
  let last0 : Option EnvStatus :=
    match initial with
    | .ok r => r.bind statusOf
    | .error _ => none
  match initial with
  | .ok (some env) =>
    if requested = .RUNNING ∧ statusOf env = some .RUNNING then
      (.immediate env, 0)
    else
      let rk := cawsPollAux getResp statusOf interval timeout cancelAt
        (timeout + 1) 0 last0
      (.polled rk.1, rk.2)
  | _ =>
    let rk := cawsPollAux getResp statusOf interval timeout cancelAt
      (timeout + 1) 0 last0
    (.polled rk.1, rk.2)

/-- Claim C8: `startEnvironmentWithProgress` debounces an already-running
environment — when the requested status is RUNNING and the initial
`getDevEnv` call reports RUNNING, the environment is returned immediately
and the probe is invoked zero times. -/
theorem start_env_with_progress_debounce (E : Type) (statusOf : E → Option EnvStatus)
    (env : E) (getResp : Nat → Option E) (i t : Nat) (c : Option Nat)
    (hst : statusOf env = some .RUNNING) :
    startEnvironmentWithProgress .RUNNING (.ok (some env)) statusOf getResp i t c
      = (.immediate env, 0) := by
  simp [startEnvironmentWithProgress, hst]

/-- Witness for claim C8: a RUNNING environment is returned at once with
zero probe invocations. -/
theorem start_env_with_progress_debounce_witness :
    EnvR.status ⟨some .RUNNING⟩ = some .RUNNING
    ∧ startEnvironmentWithProgress .RUNNING (.ok (some (⟨some .RUNNING⟩ : EnvR)))
        EnvR.status (fun _ => none) 100 500 none
      = (.immediate ⟨some .RUNNING⟩, 0) :=
  ⟨rfl, start_env_with_progress_debounce EnvR EnvR.status ⟨some .RUNNING⟩
    (fun _ => none) 100 500 none rfl⟩

/-- Agent that raised a `CancellationError` (its `agent` field). -/
inductive CancelAgent where
  | user
  | timeoutAgent
deriving DecidableEq

/-- Universe of error values `getTelemetryResult` may see: a
`CancellationError`, a `ToolkitError` (with its optional explicit
`cancelled` metadata flag and optional `cause`, which in the source may be
a `ToolkitError`, another `Error`, or a string), or anything else
(`plainError` also stands for string causes). -/
inductive ErrValue where
  | cancellation (agent : CancelAgent)
  | toolkit (cancelledFlag : Option Bool) (cause : Option ErrValue)
  | plainError

/-- Modelled from the spec: `CancellationError.isUserCancelled`
(`shared/utilities/timeoutUtils.ts`, not among the sources) — true exactly
for a `CancellationError` raised by the user agent. -/
def isUserCancelled : ErrValue → Bool
  | .cancellation .user => true
  | _ => false

/-- Whether the value is a `ToolkitError` (`instanceof ToolkitError`). -/
def ErrValue.isToolkit : ErrValue → Bool
  | .toolkit _ _ => true
  | _ => false

/-- Embedded from the `ToolkitError.cancelled` getter (toolkitError.ts,
lines 49–56): the explicit metadata flag if present, otherwise whether the
cause is a user cancellation or a `ToolkitError` that is itself
cancelled. -/
def toolkitCancelled : ErrValue → Bool
  | .cancellation _ => false
  | .plainError => false
  | .toolkit (some b) _ => b
  | .toolkit none none => false
  | .toolkit none (some cause) =>
    isUserCancelled cause || (cause.isToolkit && toolkitCancelled cause)

/-- Telemetry result labels (`Result` in shared/telemetry/telemetry). -/
inductive TelemetryResult where
  | Succeeded
  | Cancelled
  | Failed
deriving DecidableEq

/-- Embedded from `getTelemetryResult` (toolkitError.ts, lines 98–106):
`none` models the JS `undefined` argument. -/
def getTelemetryResult : Option ErrValue → TelemetryResult
  | none => .Succeeded
  | some err =>
    if isUserCancelled err || (err.isToolkit && toolkitCancelled err) then .Cancelled
    else .Failed

/-- Claim C9: `getTelemetryResult` totally classifies its input:
`Succeeded` exactly for the undefined error, `Cancelled` exactly for a
user-initiated `CancellationError` or a `ToolkitError` whose (recursively
propagated) `cancelled` flag is true, and `Failed` in every other case —
each input lands in exactly one class. -/
theorem getTelemetryResult_total_classification (e : Option ErrValue) :
    (getTelemetryResult e = .Succeeded ↔ e = none)
    ∧ (getTelemetryResult e = .Cancelled
        ↔ ∃ err, e = some err
          ∧ (isUserCancelled err = true
            ∨ (err.isToolkit = true ∧ toolkitCancelled err = true)))
    ∧ (getTelemetryResult e = .Failed
        ↔ ∃ err, e = some err
          ∧ isUserCancelled err = false
          ∧ (err.isToolkit = false ∨ toolkitCancelled err = false)) := by
  rcases e with _ | err
  · simp [getTelemetryResult]
  · cases hu : isUserCancelled err <;> cases ht : err.isToolkit <;>
      cases hc : toolkitCancelled err <;>
      simp [getTelemetryResult, hu, ht, hc]

/-- Position in a document, as vscode orders it: first by line, then by
character. -/
structure HoverPos where
  line : Nat
  character : Nat
deriving DecidableEq

/-- A code-scan issue as `provideHover` reads it. -/
structure ScanIssue where
  visible : Bool
  startLine : Nat
  endLine : Nat
  findingId : String
deriving DecidableEq

/-- A group of issues attached to one file
(`SecurityIssueProvider.instance.issues`). -/
structure IssueGroup where
  filePath : String
  issues : List ScanIssue
deriving DecidableEq

/-- Embedded from
`new vscode.Range(issue.startLine, 0, issue.endLine, 0).contains(position)`:
a vscode `Range` normalises its endpoints so that start ≤ end, and
contains `p` iff start ≤ p ≤ end in (line, character) order; both
endpoints here have character 0. -/
def rangeContains (sLine eLine : Nat) (p : HoverPos) : Bool :=
  let lo := min sLine eLine
  let hi := max sLine eLine
  decide (lo ≤ p.line)
    && (decide (p.line < hi) || (decide (p.line = hi) && decide (p.character = 0)))

/-- Embedded from the inner loop body of
`SecurityIssueHoverProvider.provideHover`: skip an invisible issue, push
one markdown entry (modelled as the pair of file path and issue) when the
issue's range contains the position. -/
def hoverIssueStep (fp : String) (pos : HoverPos)
    (contents : List (String × ScanIssue)) (issue : ScanIssue) :
    List (String × ScanIssue) :=
  if !issue.visible then contents
  else if rangeContains issue.startLine issue.endLine pos then
    contents ++ [(fp, issue)]
  else contents

/-- Embedded from the outer loop body of
`SecurityIssueHoverProvider.provideHover`: skip a group whose `filePath`
differs from the document's `fileName`, otherwise walk its issues. -/
def hoverGroupStep (fn : String) (pos : HoverPos)
    (contents : List (String × ScanIssue)) (group : IssueGroup) :
    List (String × ScanIssue) :=
  if fn ≠ group.filePath then contents
  else group.issues.foldl (hoverIssueStep group.filePath pos) contents

/-- Embedded from `SecurityIssueHoverProvider.provideHover`
(securityIssueHoverProvider.ts, lines 23–66): fold both loops starting
from the empty `contents` array. -/
def provideHover (groups : List IssueGroup) (docFileName : String)
    (pos : HoverPos) : List (String × ScanIssue) :=
  groups.foldl (hoverGroupStep docFileName pos) []

/-- Stated from the claim's words: one entry for exactly those issues that
pass all three conditions — matching file path, visibility, and a range
containing the position. -/
def hoverSpecContents (groups : List IssueGroup) (docFileName : String)
    (pos : HoverPos) : List (String × ScanIssue) :=
  groups.flatMap fun g =>
    if docFileName = g.filePath then
      (g.issues.filter fun i =>
        i.visible && rangeContains i.startLine i.endLine pos).map
        fun i => (g.filePath, i)
    else []

/-- Inner loop of `provideHover`: the fold over one group's issues appends
exactly the visible, position-containing issues. -/
theorem hover_inner_foldl_eq (fp : String) (pos : HoverPos)
    (issues : List ScanIssue) (acc : List (String × ScanIssue)) :
    issues.foldl (hoverIssueStep fp pos) acc
    = acc ++ (issues.filter fun i =>
        i.visible && rangeContains i.startLine i.endLine pos).map
        (fun i => (fp, i)) := by
  induction issues generalizing acc with
  | nil => simp
  | cons i rest ih =>
    rw [List.foldl_cons]
    cases hv : i.visible
    · rw [show hoverIssueStep fp pos acc i = acc from by simp [hoverIssueStep, hv]]
      rw [ih]
      simp [hv]
    · cases hr : rangeContains i.startLine i.endLine pos
      · rw [show hoverIssueStep fp pos acc i = acc from by
          simp [hoverIssueStep, hv, hr]]
        rw [ih]
        simp [hv, hr]
      · rw [show hoverIssueStep fp pos acc i = acc ++ [(fp, i)] from by
          simp [hoverIssueStep, hv, hr]]
        rw [ih]
        simp [hv, hr]

/-- Outer loop of `provideHover` with an explicit accumulator. -/
theorem hover_outer_foldl_eq (groups : List IssueGroup) (fn : String)
    (pos : HoverPos) (acc : List (String × ScanIssue)) :
    groups.foldl (hoverGroupStep fn pos) acc
    = acc ++ hoverSpecContents groups fn pos := by
  induction groups generalizing acc with
  | nil => simp [hoverSpecContents]
  | cons g rest ih =>
    rw [List.foldl_cons]
    by_cases hf : fn = g.filePath
    · rw [show hoverGroupStep fn pos acc g
          = g.issues.foldl (hoverIssueStep g.filePath pos) acc from by
        simp [hoverGroupStep, hf]]
      rw [hover_inner_foldl_eq g.filePath pos g.issues acc, ih]
      simp [hoverSpecContents, hf]
    · rw [show hoverGroupStep fn pos acc g = acc from by simp [hoverGroupStep, hf]]
      rw [ih]
      simp [hoverSpecContents, hf]

/-- Claim C10: `provideHover` returns one markdown entry for exactly those
issues whose group matches the document's file name, which are visible,
and whose line range contains the requested position; issues failing any
condition contribute nothing. -/
theorem provideHover_exactly_matching_issues (groups : List IssueGroup)
    (fn : String) (pos : HoverPos) :
    provideHover groups fn pos = hoverSpecContents groups fn pos := by
  unfold provideHover
  simpa using hover_outer_foldl_eq groups fn pos []

